import Mathlib

/-!
Shallow embedding of the `git-meta-rs` crate (tjtelan/git-meta-rs).

The crate is a metadata layer over a `git2` backend.  We embed the crate's own
logic (src/types.rs, src/repo.rs, src/info.rs, and the superseded helpers in
src/lib.rs) as pure Lean functions, and we model the `git2` backend and the
filesystem/process environment as explicit records of query results:
each backend call made by the source corresponds to one field lookup.

Conventions used throughout:
* commit ids are carried in their 40-hex string form, so `hex::encode(id.as_bytes())`
  is the identity in this model;
* a backend (`git2`) call that can fail is modelled as an `Option`; `none` means
  the call returned an error (whose message the model does not track), and a
  propagated backend error becomes `GitError.backend`;
* `eyre!`/`wrap_err` messages produced by the crate itself are tracked verbatim
  in `GitError.eyre`; `wrap_err` context added around a backend error is not
  modelled (the error stays `GitError.backend`);
* `tracing`/`log` macro invocations are no-ops and are dropped;
* `Path`/`OsStr`/`&str` conversions are identities (all paths are `String`s).
-/

/-- Errors surfaced by the crate: `eyre msg` is an `eyre!(msg)` error created by
the crate itself, `backend` is a propagated error from `git2` (or another
collaborator) whose message the model does not track, and `panicked` models a
Rust `expect`/`unreachable` abort in the superseded code paths. -/
inductive GitError where
  | eyre (msg : String)
  | backend
  | panicked (msg : String)
deriving Repr, DecidableEq

/-- Model of `git_meta::GitCommitMeta` (src/types.rs).  `timestamp` is the UTC
instant carried as epoch seconds (the `DateTime<Utc>` conversion in
`with_timestamp` is second-precision). -/
structure GitCommitMeta where
  id : String
  message : Option String
  timestamp : Option Int
deriving Repr, DecidableEq

/-- `GitCommitMeta::new` (src/lib.rs of the current crate): hex-encodes the id
bytes; identity on our string form of ids. -/
def GitCommitMeta.new (id : String) : GitCommitMeta :=
  { id := id, message := none, timestamp := none }

/-- `GitCommitMeta::with_timestamp`. -/
def GitCommitMeta.with_timestamp (self : GitCommitMeta) (time : Int) : GitCommitMeta :=
  { self with timestamp := some time }

/-- `GitCommitMeta::with_message`. -/
def GitCommitMeta.with_message (self : GitCommitMeta) (msg : Option String) : GitCommitMeta :=
  { self with message := msg }

/-- Model of `git_meta::GitCredentials` (src/types.rs); key paths are strings. -/
inductive GitCredentials where
  | SshKey (username : String) (public_key : Option String)
      (private_key : String) (passphrase : Option String)
  | UserPassPlaintext (username : String) (password : String)
deriving Repr, DecidableEq

/-- Model of `git_meta::GitRepo` (src/types.rs).  The `GitUrl` field is carried
as its normalized string form. -/
structure GitRepo where
  url : String
  head : Option GitCommitMeta
  credentials : Option GitCredentials
  branch : Option String
  path : Option String
deriving Repr, DecidableEq

/-- Modelled from the spec: `GitRepoInfo` is the "info/query view" of the
repository identity (its definition lives in the part of the crate not present
under src/); per Design Notes §9 it is a pure field-for-field projection of the
same identity data as `GitRepo`. -/
structure GitRepoInfo where
  url : String
  head : Option GitCommitMeta
  credentials : Option GitCredentials
  branch : Option String
  path : Option String
deriving Repr, DecidableEq

/-- Modelled from the spec: `GitRepoCloneRequest` is the "clone request view"
of the repository identity (definition not present under src/); a pure
projection carrying URL, credentials, branch and path. -/
structure GitRepoCloneRequest where
  url : String
  credentials : Option GitCredentials
  branch : Option String
  path : Option String
deriving Repr, DecidableEq

/-- Modelled from the spec: the `From<&GitRepoInfo> for GitRepo` conversion
behind `GitRepoInfo::to_repo` (src/info.rs line 14), a field-copying
projection. -/
def GitRepoInfo.to_repo (self : GitRepoInfo) : GitRepo :=
  { url := self.url, head := self.head, credentials := self.credentials,
    branch := self.branch, path := self.path }

/-- Modelled from the spec: the `From<&GitRepoInfo> for GitRepoCloneRequest`
conversion behind `GitRepoInfo::to_clone` (src/info.rs line 18). -/
def GitRepoInfo.to_clone (self : GitRepoInfo) : GitRepoCloneRequest :=
  { url := self.url, credentials := self.credentials,
    branch := self.branch, path := self.path }

/-- Modelled from the spec: the conversion behind `GitRepo::to_clone`
(src/repo.rs line 136), a field-copying projection. -/
def GitRepo.to_clone (self : GitRepo) : GitRepoCloneRequest :=
  { url := self.url, credentials := self.credentials,
    branch := self.branch, path := self.path }

/-! ## Model of the `git2` backend -/

/-- A commit object in the backend object store, answering the queries the
crate makes of a `git2::Commit`: `id`, `message()`, `time().seconds()`,
`parents()` (as ids) and `tree()` (`none` = the `tree()` call errored). -/
structure CommitObj where
  id : String
  message : Option String
  time : Int
  parents : List String
  tree : Option String
deriving Repr, DecidableEq

/-- One delta of a `git2::Diff`; `new_file_path` answers
`delta.new_file().path()`. -/
structure DiffDelta where
  new_file_path : Option String
deriving Repr, DecidableEq

/-- An advertised reference from `connection.list()` (`git2::RemoteHead`). -/
structure RemoteHead where
  name : String
  oid : String
deriving Repr, DecidableEq

/-- A `git2::Remote`: its configured `url()`, whether `connect_auth` succeeds,
and the `list()` result of the resulting connection (`none` = error). -/
structure Git2Remote where
  url : Option String
  connect_ok : Bool
  ls : Option (List RemoteHead)
deriving Repr, DecidableEq

/-- The upstream (remote-tracking) branch of a local branch, answering
`into_reference().peel_to_commit()` (`none` = error). -/
structure UpstreamBranch where
  peel_to_commit : Option CommitObj
deriving Repr, DecidableEq

/-- A local `git2::Branch`.  `name` answers `branch.name()`: outer `none` = the
call errored, `some none` = `Ok(None)`; `upstream` answers `branch.upstream()`
(`none` = error); `peel_to_commit` answers
`into_reference().peel_to_commit()`. -/
structure Git2Branch where
  name : Option (Option String)
  upstream : Option UpstreamBranch
  peel_to_commit : Option CommitObj
deriving Repr, DecidableEq

/-- The reference returned by `r.head()`:  `name` answers
`Branch::wrap(head).name()` (outer `none` = error, `some none` = `Ok(None)`,
e.g. detached HEAD); `peel_to_commit` answers `head.peel_to_commit()`. -/
structure HeadRef where
  name : Option (Option String)
  peel_to_commit : Option CommitObj
deriving Repr, DecidableEq

/-- The backend `git2::Repository`, one field per query the crate makes.
`head_resolved_name` answers `r.head().and_then(|h| h.resolve())` followed by
`.name()` (outer `none` = either call errored; `some none` = name not valid
utf-8).  `branch_upstream_remote refname` answers
`r.branch_upstream_remote(refname)` followed by `.as_str()` (outer `none` =
the lookup errored, `some none` = the buffer is not valid utf-8).
`find_branch_local` answers `r.find_branch(_, BranchType::Local)` (`none` =
error, which includes "branch not found").  `revparse_peel` answers
`r.revparse_single(_)` followed by `.peel_to_commit()`, giving the full commit
id.  `diff_tree_to_tree` takes the two tree ids and yields the deltas of the
diff computed with default options. -/
structure Repository where
  is_shallow : Bool
  head : Option HeadRef
  head_resolved_name : Option (Option String)
  branch_upstream_remote : String → Option (Option String)
  find_remote : String → Option Git2Remote
  remote_anonymous : String → Option Git2Remote
  find_branch_local : String → Option Git2Branch
  find_commit : String → Option CommitObj
  revparse_peel : String → Option String
  diff_tree_to_tree : String → String → List DiffDelta

/-- `git2::Oid::from_str`: accepts at most 40 hex digits.  (The zero-padding
git2 applies to shorter strings is irrelevant here: the crate only parses
already-expanded 40-character ids.) -/
def Oid.from_str (s : String) : Option String :=
  if s.length ≤ 40 ∧ s.data.all (fun c => c.isDigit || ("abcdefABCDEF".data.contains c)) then
    some s
  else
    none

/-- The environment of one run: `repos` answers `git2::Repository::open` per
path, `canonicalize` answers `fs::canonicalize`, `giturl_parse` answers
`GitUrl::parse` (result in normalized string form), `temp_new_dir` answers
`mktemp::Temp::new_dir()`, and `shallow_clone` answers the effect of
`GitRepoCloneRequest::git_clone_shallow` for a given request and target
directory (modelled from the spec, see `GitRepoCloneRequest.git_clone_shallow`
below). -/
structure World where
  repos : String → Option Repository
  canonicalize : String → Option String
  giturl_parse : String → Option String
  temp_new_dir : Option String
  shallow_clone : GitRepoCloneRequest → String → Option GitRepo

/-! ## src/repo.rs -/

/-- `GitRepo::to_repository_from_path` (src/repo.rs line 154). -/
def GitRepo.to_repository_from_path (w : World) (path : String) : Except GitError Repository :=
  match w.repos path with
  | some repo => .ok repo
  | none => .error (.eyre ("Failed to open repo at " ++ path))

/-- `GitRepo::to_repository` (src/repo.rs line 145). -/
def GitRepo.to_repository (self : GitRepo) (w : World) : Except GitError Repository :=
  match self.path with
  | some path => GitRepo.to_repository_from_path w path
  | none => .error (.eyre "No path set to open")

/-- `GitRepo::is_shallow` (src/repo.rs line 261). -/
def GitRepo.is_shallow (self : GitRepo) (w : World) : Except GitError Bool :=
  match self.to_repository w with
  | .error e => .error e
  | .ok repo => .ok repo.is_shallow

/-- `GitRepo::new` (src/repo.rs line 120). -/
def GitRepo.new (w : World) (url : String) : Except GitError GitRepo :=
  match w.giturl_parse url with
  | some u =>
      .ok { url := u, credentials := none, head := none, branch := none, path := none }
  | none => .error (.eyre "url failed to parse as GitUrl")

/-- `GitRepo::with_path` (src/repo.rs line 58). -/
def GitRepo.with_path (self : GitRepo) (w : World) (path : String) : Except GitError GitRepo :=
  match w.canonicalize path with
  | some p => .ok { self with path := some p }
  | none => .error (.eyre "Directory was not found")

/-- `GitRepo::with_branch` (src/repo.rs line 69): only overwrites when the
argument is `Some`. -/
def GitRepo.with_branch (self : GitRepo) (branch : Option String) : GitRepo :=
  match branch with
  | some b => { self with branch := some b }
  | none => self

/-- `GitRepo::with_credentials` (src/repo.rs line 112). -/
def GitRepo.with_credentials (self : GitRepo) (creds : Option GitCredentials) : GitRepo :=
  { self with credentials := creds }

/-- `GitRepo::with_git2_commit` (src/repo.rs line 91): builds the commit meta
from the `git2::Commit`, defaulting a missing message to `""`. -/
def GitRepo.with_git2_commit (self : GitRepo) (commit : Option CommitObj) : GitRepo :=
  match commit with
  | some c =>
      let commit_msg := c.message.getD ""
      let meta := ((GitCommitMeta.new c.id).with_message (some commit_msg)).with_timestamp c.time
      { self with head := some meta }
  | none => { self with head := none }

/-! ## src/info.rs helpers used by `open` -/

/-- `GitRepoInfo::get_git2_branch` (src/info.rs line 162).  With a given branch
name: `find_branch` `Ok` ↦ `Ok(Some(_))`, `Err` ↦ `Ok(None)` (detached HEAD).
Without one: `r.head()?` is wrapped as a branch; `Ok(Some(name))` leads to a
second `find_branch` whose `Err` also degrades to `Ok(None)`. -/
def GitRepoInfo.get_git2_branch (r : Repository) (local_branch : Option String) :
    Except GitError (Option Git2Branch) :=
  match local_branch with
  | some branch =>
      match r.find_branch_local branch with
      | some git2_branch => .ok (some git2_branch)
      | none => .ok none
  | none =>
      match r.head with
      | none => .error .backend
      | some head =>
          match head.name with
          | some (some local_branch_name) =>
              match r.find_branch_local local_branch_name with
              | some b => .ok (some b)
              | none => .ok none
          | _ => .ok none

/-- `GitRepoInfo::remote_name_from_repository` (src/info.rs line 226): unlike
`get_remote_name`, a failing `branch_upstream_remote` lookup degrades to
`Ok(None)` (local-only branch). -/
def GitRepoInfo.remote_name_from_repository (r : Repository) : Except GitError (Option String) :=
  match r.head_resolved_name with
  | none => .error .backend
  | some name_opt =>
      match name_opt with
      | none => .error (.eyre "Local branch name is not valid utf-8")
      | some local_branch_name =>
          match r.branch_upstream_remote local_branch_name with
          | none => .ok none
          | some buf =>
              match buf with
              | some name => .ok (some name)
              | none => .error (.eyre "Remote name not valid utf-8")

/-- `GitRepoInfo::remote_url_from_repository` (src/info.rs line 208). -/
def GitRepoInfo.remote_url_from_repository (r : Repository) : Except GitError (Option String) :=
  match GitRepoInfo.remote_name_from_repository r with
  | .error e => .error e
  | .ok remote_name =>
      match remote_name with
      | some remote =>
          match r.find_remote remote with
          | none => .error .backend
          | some rem =>
              match rem.url with
              | some url => .ok (some url)
              | none => .error (.eyre "Unable to extract repo url from remote")
      | none => .ok none

/-- `GitRepoInfo::git_remote_from_repo` (src/info.rs line 264). -/
def GitRepoInfo.git_remote_from_repo (r : Repository) : Except GitError (Option String) :=
  GitRepoInfo.remote_url_from_repository r

/-- `GitRepo::get_git2_commit` (src/repo.rs line 164).  The
`is_commit_in_branch` calls in the source are made with `let _ =` and their
result (and any error) is discarded, so they have no observable effect in the
model.  The `unreachable!` arm (branch and commit both absent past the first
check) is modelled as a panic; it cannot be reached. -/
def GitRepo.get_git2_commit (r : Repository) (branch commit_id : Option String) :
    Except GitError (Option CommitObj) :=
  match branch, commit_id with
  | none, none =>
      match r.head with
      | none => .error .backend
      | some head =>
          match head.peel_to_commit with
          | some commit => .ok (some commit)
          | none => .error (.eyre "Unable to retrieve HEAD commit object from remote branch")
  | branch, some id =>
      match Oid.from_str id with
      | none => .error .backend
      | some oid =>
          match r.find_commit oid with
          | none => .error .backend
          | some commit =>
              -- `branch` is not consulted when a commit id is given
              let _ := branch
              .ok (some commit)
  | some b, none =>
      match GitRepoInfo.get_git2_branch r (some b) with
      | .ok (some git2_branch) =>
          match git2_branch.upstream with
          | some upstream_branch =>
              match upstream_branch.peel_to_commit with
              | some commit => .ok (some commit)
              | none => .error (.eyre "Unable to retrieve HEAD commit object from remote branch")
          | none =>
              match git2_branch.peel_to_commit with
              | some commit => .ok (some commit)
              | none => .error (.eyre "Unable to retrieve HEAD commit object from remote branch")
      | _ => .ok none

/-- `GitRepo::open` (src/repo.rs line 18). -/
def GitRepo.open (w : World) (path : String) (branch commit_id : Option String) :
    Except GitError GitRepo :=
  match GitRepo.to_repository_from_path w path with
  | .error e => .error e
  | .ok local_repo =>
    match GitRepoInfo.git_remote_from_repo local_repo with
    | .error e => .error e
    | .ok remote_url =>
      -- `if let Ok(Some(b)) = get_git2_branch(..) { b.name()?... } else { None }`
      match
        (match GitRepoInfo.get_git2_branch local_repo branch with
         | .ok (some git2_branch) =>
             match git2_branch.name with
             | some name_opt => Except.ok name_opt
             | none => Except.error GitError.backend
         | _ => Except.ok (none : Option String)) with
      | .error e => .error e
      | .ok working_branch_name =>
        if commit_id.isSome && local_repo.is_shallow then
          .error (.eyre "Can't open by commit on shallow clones")
        else
          match GitRepo.get_git2_commit local_repo working_branch_name commit_id with
          | .error e => .error e
          | .ok commit =>
            match remote_url with
            | some url =>
                match GitRepo.new w url with
                | .error e => .error e
                | .ok g =>
                    match g.with_path w path with
                    | .error e => .error e
                    | .ok g2 => .ok ((g2.with_branch working_branch_name).with_git2_commit commit)
            | none =>
                -- the literal local path stands in for the URL
                match GitRepo.new w path with
                | .error e => .error e
                | .ok g =>
                    match g.with_path w path with
                    | .error e => .error e
                    | .ok g2 => .ok ((g2.with_branch working_branch_name).with_git2_commit commit)

/-! ## src/info.rs: change detection -/

/-- `GitRepoInfo::expand_partial_commit_id` (src/info.rs line 341).  A 40-byte
input is returned as-is before anything touches the backend; the shallow check
comes next; otherwise the id is resolved through `revparse_single` and the
result hex-encoded. -/
def GitRepoInfo.expand_partial_commit_id (self : GitRepoInfo) (w : World)
    (partial_commit_id : String) : Except GitError String :=
  let repo : GitRepo := self.to_repo
  if partial_commit_id.utf8ByteSize == 40 then
    .ok partial_commit_id
  else
    match repo.to_repository w with
    | .error e => .error e
    | .ok r =>
      if r.is_shallow then
        .error (.eyre "No support for partial commit id expand on shallow clones")
      else
        match repo.to_repository w with
        | .error e => .error e
        | .ok r2 =>
            match r2.revparse_peel partial_commit_id with
            | some extended_commit => .ok extended_commit
            | none => .error .backend

/-- The `diff.print(DiffFormat::NameOnly, ..)` loop of
`list_files_changed_between`: pushes each delta's new-side path; a delta
without one aborts the print, surfaced through `wrap_err`. -/
def diff_name_only_paths : List DiffDelta → Except GitError (List String)
  | [] => .ok []
  | delta :: rest =>
      match delta.new_file_path with
      | none => .error (.eyre "File path not found in new commit to compare")
      | some p =>
          match diff_name_only_paths rest with
          | .error e => .error e
          | .ok ps => .ok (p :: ps)

/-- `GitRepoInfo::list_files_changed_between` (src/info.rs line 269). -/
def GitRepoInfo.list_files_changed_between (self : GitRepoInfo) (w : World)
    (commit1 commit2 : String) : Except GitError (Option (List String)) :=
  let repo := self.to_repo
  match self.expand_partial_commit_id w commit1 with
  | .error e => .error e
  | .ok commit1 =>
    match self.expand_partial_commit_id w commit2 with
    | .error e => .error e
    | .ok commit2 =>
      match repo.to_repository w with
      | .error e => .error e
      | .ok r =>
        match Oid.from_str commit1 with
        | none => .error .backend
        | some oid1 =>
          match Oid.from_str commit2 with
          | none => .error .backend
          | some oid2 =>
            match r.find_commit oid1 with
            | none => .error .backend
            | some git2_commit1 =>
              match git2_commit1.tree with
              | none => .error .backend
              | some tree1 =>
                match r.find_commit oid2 with
                | none => .error .backend
                | some git2_commit2 =>
                  match git2_commit2.tree with
                  | none => .error .backend
                  | some tree2 =>
                    match diff_name_only_paths (r.diff_tree_to_tree tree1 tree2) with
                    | .error e => .error e
                    | .ok paths =>
                        if !paths.isEmpty then .ok (some paths) else .ok none

/-- The parent loop of `list_files_changed_at`: concatenates, in parent order,
the path lists of `list_files_changed_between(parent, commit)`, skipping `None`
results; any error propagates. -/
def GitRepoInfo.changed_at_loop (self : GitRepoInfo) (w : World) (commit : String) :
    List String → Except GitError (List String)
  | [] => .ok []
  | parent_commit_id :: rest =>
      match self.list_files_changed_between w parent_commit_id commit with
      | .error e => .error e
      | .ok path_vec =>
          match self.changed_at_loop w commit rest with
          | .error e => .error e
          | .ok tail => .ok (path_vec.getD [] ++ tail)

/-- `GitRepoInfo::list_files_changed_at` (src/info.rs line 311). -/
def GitRepoInfo.list_files_changed_at (self : GitRepoInfo) (w : World) (commit : String) :
    Except GitError (Option (List String)) :=
  let repo := self.to_repo
  match self.expand_partial_commit_id w commit with
  | .error e => .error e
  | .ok commit =>
    match repo.to_repository w with
    | .error e => .error e
    | .ok git2_repo =>
      match Oid.from_str commit with
      | none => .error .backend
      | some oid =>
        match git2_repo.find_commit oid with
        | none => .error .backend
        | some git2_commit =>
          match self.changed_at_loop w commit git2_commit.parents with
          | .error e => .error e
          | .ok changed_files =>
              if !changed_files.isEmpty then .ok (some changed_files) else .ok none

/-- `GitRepoInfo::has_path_changed_between` (src/info.rs line 398): a file
counts as matching when its path string *starts with* the queried path
(`str::starts_with`, a textual prefix test, not segment-aware).  Rust's
byte-level prefix test coincides with the character-sequence prefix test on
valid UTF-8 strings, which is how it is modelled here. -/
def GitRepoInfo.has_path_changed_between (self : GitRepoInfo) (w : World)
    (path commit1 commit2 : String) : Except GitError Bool :=
  match self.expand_partial_commit_id w commit1 with
  | .error e => .error e
  | .ok commit1 =>
    match self.expand_partial_commit_id w commit2 with
    | .error e => .error e
    | .ok commit2 =>
      match self.list_files_changed_between w commit1 commit2 with
      | .error e => .error e
      | .ok changed_files =>
          match changed_files with
          | some files => .ok (files.any (fun f => path.data.isPrefixOf f.data))
          | none => .ok false

/-! ## src/info.rs: remote head enumeration and new-commit check -/

/-- `GitRepoInfo::get_remote_name` (src/info.rs line 24): the
`branch_upstream_remote` error propagates (`?`), it does NOT fall back to
`"origin"`. -/
def GitRepoInfo.get_remote_name (self : GitRepoInfo) (r : Repository) : Except GitError String :=
  let _ := self
  match r.head_resolved_name with
  | none => .error .backend
  | some local_branch =>
      match local_branch with
      | some refname =>
          match r.branch_upstream_remote refname with
          | none => .error .backend
          | some upstream_remote =>
              match upstream_remote with
              | some name => .ok name
              | none => .error (.eyre "Upstream remote name not valid utf-8")
      | none => .error (.eyre "Local branch name not valid utf-8")

/-- The superseded `GitRepo::_get_remote_name` (src/lib.rs line 101): here a
failing `branch_upstream_remote` lookup falls back to `"origin"`
(`unwrap_or_else`); the `expect` calls panic. -/
def LegacyGitRepo._get_remote_name (r : Repository) : Except GitError String :=
  match r.head_resolved_name with
  | none => .error .backend
  | some name_opt =>
      match name_opt with
      | none => .error (.panicked "branch name is valid utf8")
      | some refname =>
          match r.branch_upstream_remote refname with
          | none => .ok "origin"
          | some buf =>
              match buf with
              | some name => .ok name
              | none => .error (.panicked "valid utf8")

/-- Model of a built `git2::RemoteCallbacks`: it closes over the credentials;
failures can only happen when the callback is later invoked. -/
structure RemoteCallbacks where
  credentials : Option GitCredentials
deriving Repr, DecidableEq

/-- `GitRepoInfo::build_git2_remotecallback` (src/info.rs line 472): every
credential variant (and the no-credential case) returns `Ok` — errors can only
arise inside the installed closure, at connect time. -/
def GitRepoInfo.build_git2_remotecallback (self : GitRepoInfo) :
    Except GitError RemoteCallbacks :=
  .ok { credentials := self.credentials }

/-- Modelled from the spec: `GitRepoCloneRequest::git_clone_shallow` (its
implementation is in the part of the crate not present under src/): §4.2
shallow clone via the external `git` CLI (depth 1, `--no-single-branch`),
success determined by the resulting directory opening as a repository,
yielding a re-derived repository identity. -/
def GitRepoCloneRequest.git_clone_shallow (self : GitRepoCloneRequest) (w : World)
    (target : String) : Except GitError GitRepo :=
  match w.shallow_clone self target with
  | some gitrepo => .ok gitrepo
  | none => .error (.eyre "git_clone_shallow failed")

/-- The suffix strictly after the last occurrence of `sep` in the list, or
`none` when `sep` does not occur.  (Later positions are inspected first, so the
rightmost occurrence wins, matching `str::rsplit`'s first item.) -/
def tail_after_last (sep : List Char) : List Char → Option (List Char)
  | [] => none
  | c :: rest =>
      match tail_after_last sep rest with
      | some suffix => some suffix
      | none =>
          if sep.isPrefixOf (c :: rest) then some ((c :: rest).drop sep.length) else none

/-- Strip of `"refs/heads/"` as done in `get_remote_branch_head_refs`:
`name.rsplit("refs/heads/").collect::<Vec<_>>()[0]`, i.e. the text after the
rightmost occurrence of the separator (the whole name when it does not
occur). -/
def strip_refs_heads (name : String) : String :=
  match tail_after_last "refs/heads/".data name.data with
  | some suffix => String.mk suffix
  | none => name

/-- The `HashMap::insert` of the branch-head map: replaces any existing entry
for the key. -/
def bh_insert (m : List (String × GitCommitMeta)) (k : String) (v : GitCommitMeta) :
    List (String × GitCommitMeta) :=
  (k, v) :: m.filter (fun kv => !(kv.1 == k))

/-- Lookup in the branch-head map model. -/
def bh_lookup (m : List (String × GitCommitMeta)) (k : String) : Option GitCommitMeta :=
  match m with
  | [] => none
  | (k', v) :: rest => if k' == k then some v else bh_lookup rest k

/-- Model of `git_meta::BranchHeads = HashMap<String, GitCommitMeta>`
(src/types.rs), as an insertion map. -/
def BranchHeads := List (String × GitCommitMeta)
deriving Repr, DecidableEq

/-- The commit metadata recorded per retained branch in
`get_remote_branch_head_refs` (src/info.rs lines 121–123). -/
def branch_head_meta (commit : CommitObj) : GitCommitMeta :=
  ((GitCommitMeta.new commit.id).with_timestamp commit.time).with_message commit.message

/-- The reference loop of `get_remote_branch_head_refs`: for each advertised
`refs/heads/*` reference (already filtered), strip the prefix, skip names
present in the filter, look up the head commit (an error aborts the whole
call), and insert its metadata. -/
def collect_branch_heads (r : Repository) (branch_filter : Option (List String)) :
    List RemoteHead → List (String × GitCommitMeta) →
    Except GitError (List (String × GitCommitMeta))
  | [], ref_map => .ok ref_map
  | git_ref :: rest, ref_map =>
      let branch_name := strip_refs_heads git_ref.name
      if (match branch_filter with
          | some branches => branches.contains branch_name
          | none => false) then
        collect_branch_heads r branch_filter rest ref_map
      else
        match r.find_commit git_ref.oid with
        | none => .error .backend
        | some commit =>
            collect_branch_heads r branch_filter rest
              (bh_insert ref_map branch_name (branch_head_meta commit))

/-- `GitRepoInfo::get_remote_branch_head_refs` (src/info.rs line 45). -/
def GitRepoInfo.get_remote_branch_head_refs (self : GitRepoInfo) (w : World)
    (branch_filter : Option (List String)) : Except GitError BranchHeads :=
  match w.temp_new_dir with
  | none => .error (.eyre "Unable to create temp directory")
  | some temp_dir =>
    match
      (match self.path with
       | some p => GitRepo.to_repository_from_path w p
       | none =>
           match (self.to_clone).git_clone_shallow w temp_dir with
           | .error e => .error e
           | .ok cloned => cloned.to_repository w) with
    | .error e => .error e
    | .ok repo =>
      let cb := self.build_git2_remotecallback
      match self.get_remote_name repo with
      | .error _ => .error (.eyre "Could not read remote name from git2::Repository")
      | .ok remote_name =>
        match
          (match repo.find_remote remote_name with
           | some r => some r
           | none => repo.remote_anonymous remote_name) with
        | none => .error (.eyre ("Could not create anonymous remote from: " ++ remote_name))
        | some remote =>
          -- `remote.connect_auth(Direction::Fetch, Some(cb?), None)`
          match cb with
          | .error e => .error e
          | .ok _callbacks =>
            if !remote.connect_ok then
              .error (.eyre "Unable to connect to git repo")
            else
              match remote.ls with
              | none => .error .backend
              | some heads =>
                  -- `head.name().starts_with("refs/heads/")`, as a char-level
                  -- prefix test (coincides with Rust's byte-level one)
                  collect_branch_heads repo branch_filter
                    (heads.filter (fun head => "refs/heads/".data.isPrefixOf head.name.data)) []

/-- `GitRepoInfo::new_commits_exist` (src/info.rs line 436): rebuilds an
identity from the stored URL (reparsed), branch and credentials, shallow-clones
it into a fresh temp directory, and compares the stored and fresh `head`
fields. -/
def GitRepoInfo.new_commits_exist (self : GitRepoInfo) (w : World) : Except GitError Bool :=
  match
    (match GitRepo.new w self.url with
     | .ok gitrepo =>
         match self.branch with
         | some branch =>
             Except.ok ((gitrepo.with_branch (some branch)).with_credentials self.credentials)
         | none => Except.error (GitError.eyre "No branch set")
     | .error _ => Except.error (GitError.eyre "Could not crete new GitUrl")) with
  | .error e => .error e
  | .ok repo =>
    match w.temp_new_dir with
    | none => .error (.eyre "Could not create temporary dir")
    | some tempdir =>
      let clone : GitRepoCloneRequest := repo.to_clone
      match clone.git_clone_shallow w tempdir with
      | .error _ => .error (.eyre "Could not shallow clone dir")
      | .ok repo2 => .ok (decide (self.head ≠ repo2.head))

/-! ## Derived views used in statements -/

/-- The list of changed paths carried by a change-detection result: the paths
of an `Ok(Some(paths))`, and `[]` for `Ok(None)` or an error. -/
def pathsOfExcept (r : Except GitError (Option (List String))) : List String :=
  match r with
  | .ok (some l) => l
  | _ => []

/-! ## Concrete fixtures (used by witnesses and counterexamples) -/

/-- A fixed full 40-hex commit id. -/
def id40a : String := "aaaaaaaaaaaaaaaaaaaaaaaaaaaaaaaaaaaaaaaa"

/-- A second fixed full 40-hex commit id. -/
def id40b : String := "bbbbbbbbbbbbbbbbbbbbbbbbbbbbbbbbbbbbbbbb"

/-- A third fixed full 40-hex commit id (a merge commit in the fixtures). -/
def id40c : String := "cccccccccccccccccccccccccccccccccccccccc"

/-- Fixture commit `A` (first parent of the merge). -/
def commitA : CommitObj :=
  { id := id40a, message := some "first parent", time := 100, parents := [], tree := some "ta" }

/-- Fixture commit `B` (second parent of the merge). -/
def commitB : CommitObj :=
  { id := id40b, message := some "second parent", time := 200, parents := [], tree := some "tb" }

/-- Fixture merge commit `M` with parents `A` and `B`. -/
def commitM : CommitObj :=
  { id := id40c, message := some "merge", time := 300, parents := [id40a, id40b],
    tree := some "tc" }

/-- Fixture remote `origin`, advertising `main` and `dev` branch heads. -/
def originRemote : Git2Remote :=
  { url := some "https://example.com/repo.git", connect_ok := true,
    ls := some [{ name := "refs/heads/main", oid := id40c },
                { name := "refs/heads/dev", oid := id40a }] }

/-- Fixture local branch `main`, tracking the `origin` head at `M`. -/
def mainBranch : Git2Branch :=
  { name := some (some "main"),
    upstream := some { peel_to_commit := some commitM },
    peel_to_commit := some commitM }

/-- A healthy backend repository fixture: HEAD on `main` at merge commit `M`,
upstream remote `origin`.  The diff of a tree with itself is empty; the diff
from `A`'s tree to `M`'s tree touches `src/lib.rs`, the one from `B`'s tree to
`M`'s tree touches `src-old/file`. -/
def deepRepo : Repository :=
  { is_shallow := false
    head := some { name := some (some "main"), peel_to_commit := some commitM }
    head_resolved_name := some (some "refs/heads/main")
    branch_upstream_remote := fun n => if n = "refs/heads/main" then some (some "origin") else none
    find_remote := fun n => if n = "origin" then some originRemote else none
    remote_anonymous := fun _ => none
    find_branch_local := fun n => if n = "main" then some mainBranch else none
    find_commit := fun oid =>
      if oid = id40a then some commitA
      else if oid = id40b then some commitB
      else if oid = id40c then some commitM
      else none
    revparse_peel := fun s => if s = "c0ffee" then some id40c else none
    diff_tree_to_tree := fun t1 t2 =>
      if t1 = t2 then []
      else if t1 = "ta" ∧ t2 = "tc" then [{ new_file_path := some "src/lib.rs" }]
      else if t1 = "tb" ∧ t2 = "tc" then [{ new_file_path := some "src-old/file" }]
      else [] }

/-- The same backend repository, but a shallow clone. -/
def shallowRepo : Repository :=
  { deepRepo with is_shallow := true }

/-- A backend repository whose current branch has no upstream remote
configured: `branch_upstream_remote` errors for every name, everything else is
healthy (an `origin` remote exists and would accept connections). -/
def noUpstreamRepo : Repository :=
  { deepRepo with branch_upstream_remote := fun _ => none }

/-- Fixture world: `/repo` opens as `deepRepo`; canonicalization and URL
parsing are identities; a temp directory is available; a shallow clone
re-derives an identity whose head is `M`'s metadata. -/
def deepWorld : World :=
  { repos := fun p => if p = "/repo" then some deepRepo else none
    canonicalize := fun p => some p
    giturl_parse := fun s => some s
    temp_new_dir := some "/tmp/scratch"
    shallow_clone := fun req dir =>
      some { url := req.url, head := some (GitCommitMeta.new id40c),
             credentials := req.credentials, branch := req.branch, path := some dir } }

/-- Fixture world whose `/repo` is the shallow clone. -/
def shallowWorld : World :=
  { deepWorld with repos := fun p => if p = "/repo" then some shallowRepo else none }

/-- Fixture world whose `/repo` has no upstream remote configured. -/
def noUpstreamWorld : World :=
  { deepWorld with repos := fun p => if p = "/repo" then some noUpstreamRepo else none }

/-- Fixture identity opened at `/repo` of `deepWorld`, head not yet resolved. -/
def deepInfo : GitRepoInfo :=
  { url := "https://example.com/repo.git", head := none, credentials := none,
    branch := some "main", path := some "/repo" }

/-- The same identity pointed at the shallow clone. -/
def shallowInfo : GitRepoInfo :=
  { deepInfo with path := some "/repo" }

/-- The same identity with no branch recorded. -/
def noBranchInfo : GitRepoInfo :=
  { deepInfo with branch := none }

/-! ## Claims -/

/-- C2: for every input string whose (byte) length is exactly 40,
`expand_partial_commit_id` returns the string unchanged, and the result does
not depend on the backend world at all (no backend lookup, no validation
against the object store). -/
theorem claim_C2_full_id_returned_unchanged (self : GitRepoInfo) (w w' : World) (s : String)
    (h : s.utf8ByteSize = 40) :
    self.expand_partial_commit_id w s = .ok s ∧
    self.expand_partial_commit_id w s = self.expand_partial_commit_id w' s := by
  unfold GitRepoInfo.expand_partial_commit_id
  simp [h]

/-- C2 witness: a concrete 40-character id is returned unchanged on the
concrete fixture world. -/
theorem claim_C2_witness :
    deepInfo.expand_partial_commit_id deepWorld id40a = .ok id40a ∧
    deepInfo.expand_partial_commit_id deepWorld id40a =
      deepInfo.expand_partial_commit_id shallowWorld id40a :=
  claim_C2_full_id_returned_unchanged deepInfo deepWorld shallowWorld id40a (by decide)

/-- C1 counterexample: on a repository that IS a shallow clone
(`is_shallow() == Ok(true)`), `expand_partial_commit_id` applied to an
already-full 40-character id does NOT fail — it returns the id unchanged,
because the length-40 early return precedes the shallow check
(src/info.rs lines 344–355). -/
theorem claim_C1_counterexample :
    shallowInfo.to_repo.is_shallow shallowWorld = .ok true ∧
    shallowInfo.expand_partial_commit_id shallowWorld id40a = .ok id40a := by
  exact ⟨rfl, rfl⟩

/-- C1 (amended): for every input string whose length is NOT 40,
`expand_partial_commit_id` on a repository that opens as a shallow clone fails
with the shallow-clone-unsupported error; 40-character inputs bypass the check
and are returned unchanged. -/
theorem claim_C1_shallow_reject_non_full (self : GitRepoInfo) (w : World) (s : String)
    (r : Repository)
    (hlen : s.utf8ByteSize ≠ 40)
    (hrepo : (self.to_repo).to_repository w = .ok r)
    (hsh : r.is_shallow = true) :
    self.expand_partial_commit_id w s =
      .error (.eyre "No support for partial commit id expand on shallow clones") := by
  unfold GitRepoInfo.expand_partial_commit_id
  simp [hlen, hrepo, hsh]

/-- C1 witness: a concrete 6-character partial id on the concrete shallow
fixture is rejected with the shallow-clone-unsupported error. -/
theorem claim_C1_witness :
    shallowInfo.expand_partial_commit_id shallowWorld "c0ffee" =
      .error (.eyre "No support for partial commit id expand on shallow clones") :=
  claim_C1_shallow_reject_non_full shallowInfo shallowWorld "c0ffee" shallowRepo
    (by decide) (by rfl) (by rfl)

/-- C3: on a shallow clone, `open` with a commit hint fails for EVERY choice of
branch hint (the failure needs only that the repository opens, since any
later error also makes the call fail), while `open` with no branch and no
commit hint succeeds on the same healthy shallow clone. -/
theorem claim_C3_open_shallow (w : World) (p : String) (r : Repository)
    (hd : HeadRef) (br : Git2Branch) (up : UpstreamBranch) (c : CommitObj)
    (u bn gu cp : String)
    (hrepo : w.repos p = some r)
    (hsh : r.is_shallow = true)
    (hurl : GitRepoInfo.git_remote_from_repo r = .ok (some u))
    (hhead : r.head = some hd)
    (hhname : hd.name = some (some bn))
    (hfb : r.find_branch_local bn = some br)
    (hbrname : br.name = some (some bn))
    (hup : br.upstream = some up)
    (hpeel : up.peel_to_commit = some c)
    (hparse : w.giturl_parse u = some gu)
    (hcanon : w.canonicalize p = some cp) :
    (∀ (bopt : Option String) (cid : String),
        ∃ e, GitRepo.open w p bopt (some cid) = .error e) ∧
    (∃ g, GitRepo.open w p none none = .ok g) := by
  constructor
  · intro bopt cid
    unfold GitRepo.open GitRepo.to_repository_from_path
    rw [hrepo]
    cases hrem : GitRepoInfo.git_remote_from_repo r with
    | error e => exact ⟨e, by simp [hrem]⟩
    | ok ru =>
      cases hwb : (match GitRepoInfo.get_git2_branch r bopt with
        | .ok (some git2_branch) =>
            match git2_branch.name with
            | some name_opt => Except.ok name_opt
            | none => Except.error GitError.backend
        | _ => Except.ok (none : Option String)) with
      | error e => exact ⟨e, by simp [hrem, hwb]⟩
      | ok wbn =>
        exact ⟨GitError.eyre "Can't open by commit on shallow clones",
          by simp [hrem, hwb, hsh]⟩
  · unfold GitRepo.open GitRepo.to_repository_from_path
    rw [hrepo]
    simp only [hurl, GitRepoInfo.get_git2_branch, GitRepo.get_git2_commit,
      GitRepo.new, GitRepo.with_path, hhead, hhname, hfb, hbrname, hup, hpeel,
      hparse, hcanon, Option.isSome_none, Bool.false_and, if_false]
    exact ⟨_, rfl⟩

/-- C3 witness: on the concrete shallow fixture, every commit-hinted `open`
fails and the default `open` succeeds. -/
theorem claim_C3_witness :
    (∀ (bopt : Option String) (cid : String),
        ∃ e, GitRepo.open shallowWorld "/repo" bopt (some cid) = .error e) ∧
    (∃ g, GitRepo.open shallowWorld "/repo" none none = .ok g) :=
  claim_C3_open_shallow shallowWorld "/repo" shallowRepo
    { name := some (some "main"), peel_to_commit := some commitM }
    mainBranch { peel_to_commit := some commitM } commitM
    "https://example.com/repo.git" "main" "https://example.com/repo.git" "/repo"
    rfl rfl rfl rfl rfl rfl rfl rfl rfl rfl rfl

/-- C4: `list_files_changed_between` never returns `Ok(Some([]))`, and whenever
its pipeline succeeds and the tree diff of the (shared) commit against itself
is empty, the call with the same commit twice returns `Ok(None)`. -/
theorem claim_C4_empty_diff_is_none (self : GitRepoInfo) (w : World) :
    (∀ c1 c2, self.list_files_changed_between w c1 c2 ≠ .ok (some [])) ∧
    (∀ (a afull : String) (r : Repository) (c : CommitObj) (t : String),
      self.expand_partial_commit_id w a = .ok afull →
      (self.to_repo).to_repository w = .ok r →
      Oid.from_str afull = some afull →
      r.find_commit afull = some c →
      c.tree = some t →
      r.diff_tree_to_tree t t = [] →
      self.list_files_changed_between w a a = .ok none) := by
  constructor
  · intro c1 c2 h
    unfold GitRepoInfo.list_files_changed_between at h
    cases hr : self.to_repo.to_repository w <;>
      simp only [hr] at h <;>
      repeat' split at h
    all_goals simp_all
  · intro a afull r c t hexp hrepo hoid hfind htree hdiag
    unfold GitRepoInfo.list_files_changed_between
    simp [hexp, hrepo, hoid, hfind, htree, hdiag, diff_name_only_paths]

/-- C4 witness: diffing the concrete commit `A` against itself on the fixture
world returns `Ok(None)`. -/
theorem claim_C4_witness :
    deepInfo.list_files_changed_between deepWorld id40a id40a = .ok none :=
  (claim_C4_empty_diff_is_none deepInfo deepWorld).2 id40a id40a deepRepo commitA "ta"
    rfl rfl (by decide) rfl rfl rfl

/-- The parent loop of `list_files_changed_at` concatenates, parent by parent,
the changed paths of each parent diff, provided each inner call succeeds. -/
theorem changed_at_loop_ok (self : GitRepoInfo) (w : World) (commit : String)
    (l : List String)
    (h : ∀ p ∈ l, ∃ o, self.list_files_changed_between w p commit = .ok o) :
    self.changed_at_loop w commit l =
      .ok (l.foldr
        (fun p acc => pathsOfExcept (self.list_files_changed_between w p commit) ++ acc) []) := by
  induction l with
  | nil => rfl
  | cons p rest ih =>
    obtain ⟨o, ho⟩ := h p (by simp)
    have hrest := ih (fun q hq => h q (by simp [hq]))
    unfold GitRepoInfo.changed_at_loop
    rw [ho, hrest]
    simp only [List.foldr_cons, ho]
    cases o <;> simp [pathsOfExcept]

/-- Membership in a fold of list concatenations. -/
theorem mem_foldr_append {α β : Type} (f : α → List β) (l : List α) (x : β) :
    x ∈ l.foldr (fun p acc => f p ++ acc) [] ↔ ∃ p ∈ l, x ∈ f p := by
  induction l with
  | nil => simp
  | cons p rest ih => simp [ih]

/-- The final `Some`-iff-nonempty wrapping of `list_files_changed_at` (and of
`list_files_changed_between`) never changes the carried path list. -/
theorem pathsOfExcept_wrap (L : List String) :
    pathsOfExcept (if !L.isEmpty then Except.ok (some L) else Except.ok none) = L := by
  cases L <;> simp [pathsOfExcept]

/-- C5: when the commit resolves and every per-parent diff succeeds, the paths
of `list_files_changed_at` are exactly the union (here: concatenation
membership) over the commit's parents of the paths of
`list_files_changed_between(parent, commit)`; a parentless (root) commit
yields `Ok(None)`. -/
theorem claim_C5_changed_at_is_parent_union (self : GitRepoInfo) (w : World)
    (m mfull : String) (r : Repository) (c : CommitObj)
    (hexp : self.expand_partial_commit_id w m = .ok mfull)
    (hrepo : (self.to_repo).to_repository w = .ok r)
    (hoid : Oid.from_str mfull = some mfull)
    (hfind : r.find_commit mfull = some c)
    (hpar : ∀ p ∈ c.parents, ∃ o, self.list_files_changed_between w p mfull = .ok o) :
    (∀ x, x ∈ pathsOfExcept (self.list_files_changed_at w m) ↔
        ∃ p ∈ c.parents, x ∈ pathsOfExcept (self.list_files_changed_between w p mfull)) ∧
    (c.parents = [] → self.list_files_changed_at w m = .ok none) := by
  have hloop := changed_at_loop_ok self w mfull c.parents hpar
  have hpaths : pathsOfExcept (self.list_files_changed_at w m) =
      c.parents.foldr
        (fun p acc => pathsOfExcept (self.list_files_changed_between w p mfull) ++ acc) [] := by
    unfold GitRepoInfo.list_files_changed_at
    simp only [hexp, hrepo, hoid, hfind, hloop, pathsOfExcept_wrap]
  constructor
  · intro x
    rw [hpaths]
    exact mem_foldr_append _ c.parents x
  · intro h0
    rw [h0] at hloop
    unfold GitRepoInfo.list_files_changed_at
    simp only [hexp, hrepo, hoid, hfind, h0, hloop]
    simp

/-- C5 witness: for the concrete merge commit `M` with parents `A` and `B`,
the paths of `list_files_changed_at` are exactly the union of the two
per-parent results. -/
theorem claim_C5_witness :
    (∀ x, x ∈ pathsOfExcept (deepInfo.list_files_changed_at deepWorld id40c) ↔
        ∃ p ∈ commitM.parents,
          x ∈ pathsOfExcept (deepInfo.list_files_changed_between deepWorld p id40c)) ∧
    (commitM.parents = [] → deepInfo.list_files_changed_at deepWorld id40c = .ok none) :=
  claim_C5_changed_at_is_parent_union deepInfo deepWorld id40c id40c deepRepo commitM
    rfl rfl (by decide) rfl
    (by
      intro p hp
      rcases (by simpa [commitM] using hp : p = id40a ∨ p = id40b) with h | h <;> subst h
      · exact ⟨some ["src/lib.rs"], rfl⟩
      · exact ⟨some ["src-old/file"], rfl⟩)

/-- C6: `has_path_changed_between` answers `Ok(true)` exactly when some
changed-file path string between the two commits has the queried path as a
textual (character-sequence) prefix — not a segment-aware containment test. -/
theorem claim_C6_prefix_semantics (self : GitRepoInfo) (w : World)
    (path c1 c2 e1 e2 : String) (res : Option (List String))
    (h1 : self.expand_partial_commit_id w c1 = .ok e1)
    (h2 : self.expand_partial_commit_id w c2 = .ok e2)
    (h3 : self.list_files_changed_between w e1 e2 = .ok res) :
    self.has_path_changed_between w path c1 c2 = .ok true ↔
      ∃ f ∈ res.getD [], path.data <+: f.data := by
  unfold GitRepoInfo.has_path_changed_between
  simp only [h1, h2, h3]
  cases res with
  | none => simp
  | some files =>
      simp [List.any_eq_true, List.isPrefixOf_iff_prefix]

/-- C6 witness: querying the directory-like path `"src"` reports `true` on the
concrete diff whose only changed file is `"src-old/file"` — the documented
non-segment-aware edge case. -/
theorem claim_C6_witness :
    deepInfo.has_path_changed_between deepWorld "src" id40b id40c = .ok true :=
  (claim_C6_prefix_semantics deepInfo deepWorld "src" id40b id40c id40b id40c
      (some ["src-old/file"]) rfl rfl rfl).mpr
    ⟨"src-old/file", by simp, ⟨"-old/file".data, by decide⟩⟩

/-- Inserting a key makes it retrievable. -/
theorem bh_lookup_insert_self (m : List (String × GitCommitMeta)) (k : String)
    (v : GitCommitMeta) : bh_lookup (bh_insert m k v) k = some v := by
  simp [bh_insert, bh_lookup]

/-- Erasing entries of another key does not change a lookup. -/
theorem bh_lookup_filter_ne (m : List (String × GitCommitMeta)) (k k' : String)
    (hne : k' ≠ k) :
    bh_lookup (m.filter fun kv => !(kv.1 == k)) k' = bh_lookup m k' := by
  induction m with
  | nil => rfl
  | cons kv rest ih =>
    obtain ⟨a, b⟩ := kv
    by_cases h : a = k
    · have hak' : a ≠ k' := by simpa [h] using hne.symm
      simp [List.filter_cons, h, bh_lookup, hak', Ne.symm hne, ih]
    · by_cases h' : a = k'
      · simp [List.filter_cons, h, bh_lookup, h', hne, ih]
      · simp [List.filter_cons, h, bh_lookup, h', ih]

/-- Inserting another key does not change a lookup. -/
theorem bh_lookup_insert_ne (m : List (String × GitCommitMeta)) (k k' : String)
    (v : GitCommitMeta) (hne : k' ≠ k) :
    bh_lookup (bh_insert m k v) k' = bh_lookup m k' := by
  have : k ≠ k' := hne.symm
  simp only [bh_insert, bh_lookup, this, if_neg, beq_iff_eq]
  · exact bh_lookup_filter_ne m k k' hne

/-- Behaviour of the reference loop of `get_remote_branch_head_refs` under a
supplied filter list `bs`: provided each retained head's commit lookup
succeeds and the stripped branch names are distinct, the loop succeeds;
filtered names leave the accumulator untouched and retained names map to
their head commit metadata. -/
theorem collect_branch_heads_spec (r : Repository) (bs : List String) :
    ∀ (refs : List RemoteHead) (m0 : List (String × GitCommitMeta)),
    (∀ h ∈ refs, (r.find_commit h.oid).isSome) →
    (refs.map (fun h => strip_refs_heads h.name)).Nodup →
    ∃ m, collect_branch_heads r (some bs) refs m0 = .ok m ∧
      (∀ k, k ∉ refs.map (fun h => strip_refs_heads h.name) →
          bh_lookup m k = bh_lookup m0 k) ∧
      (∀ h ∈ refs,
        (strip_refs_heads h.name ∈ bs →
          bh_lookup m (strip_refs_heads h.name) = bh_lookup m0 (strip_refs_heads h.name)) ∧
        (strip_refs_heads h.name ∉ bs → ∃ c, r.find_commit h.oid = some c ∧
          bh_lookup m (strip_refs_heads h.name) = some (branch_head_meta c))) := by
  intro refs
  induction refs with
  | nil =>
    intro m0 _ _
    exact ⟨m0, rfl, fun k _ => rfl, by simp⟩
  | cons h0 rest ih =>
    intro m0 hall hnodup
    rw [List.map_cons, List.nodup_cons] at hnodup
    obtain ⟨hnd1, hnd2⟩ := hnodup
    by_cases hin : strip_refs_heads h0.name ∈ bs
    · obtain ⟨m, hm, hunch, hprops⟩ := ih m0 (fun q hq => hall q (by simp [hq])) hnd2
      refine ⟨m, ?_, ?_, ?_⟩
      · unfold collect_branch_heads
        simpa [hin] using hm
      · intro k hk
        rw [List.map_cons, List.mem_cons] at hk
        push_neg at hk
        exact hunch k hk.2
      · intro h hh
        rcases List.mem_cons.mp hh with rfl | hh'
        · exact ⟨fun _ => hunch _ hnd1, fun hnot => absurd hin hnot⟩
        · exact ⟨(hprops h hh').1, (hprops h hh').2⟩
    · have hsome := hall h0 (by simp)
      obtain ⟨c, hc⟩ := Option.isSome_iff_exists.mp hsome
      obtain ⟨m, hm, hunch, hprops⟩ :=
        ih (bh_insert m0 (strip_refs_heads h0.name) (branch_head_meta c))
          (fun q hq => hall q (by simp [hq])) hnd2
      refine ⟨m, ?_, ?_, ?_⟩
      · unfold collect_branch_heads
        simpa [hin, hc] using hm
      · intro k hk
        rw [List.map_cons, List.mem_cons] at hk
        push_neg at hk
        rw [hunch k hk.2, bh_lookup_insert_ne _ _ _ _ hk.1]
      · intro h hh
        rcases List.mem_cons.mp hh with rfl | hh'
        · refine ⟨fun hmem => absurd hmem hin, fun _ => ⟨c, hc, ?_⟩⟩
          rw [hunch _ hnd1]
          exact bh_lookup_insert_self _ _ _
        · refine ⟨?_, (hprops h hh').2⟩
          intro hmem
          have hne : strip_refs_heads h.name ≠ strip_refs_heads h0.name := by
            intro he
            exact hnd1 (he ▸ List.mem_map_of_mem _ hh')
          rw [(hprops h hh').1 hmem, bh_lookup_insert_ne _ _ _ _ hne]

/-- C7: with a filter list supplied, `get_remote_branch_head_refs` omits a
`refs/heads/*` branch name from the returned mapping exactly when it is listed
in the filter (exclude-if-listed), and every advertised head branch not listed
appears mapped to its head commit metadata. -/
theorem claim_C7_filter_excludes_listed (self : GitRepoInfo) (w : World) (p : String)
    (r : Repository) (td rn : String) (rem : Git2Remote) (refs : List RemoteHead)
    (bs : List String)
    (htemp : w.temp_new_dir = some td)
    (hpath : self.path = some p)
    (hrepo : w.repos p = some r)
    (hname : self.get_remote_name r = .ok rn)
    (hrem : r.find_remote rn = some rem)
    (hconn : rem.connect_ok = true)
    (hls : rem.ls = some refs)
    (hall : ∀ h ∈ refs, "refs/heads/".data.isPrefixOf h.name.data = true →
        (r.find_commit h.oid).isSome)
    (hnodup : ((refs.filter (fun h => "refs/heads/".data.isPrefixOf h.name.data)).map
        (fun h => strip_refs_heads h.name)).Nodup) :
    ∃ m, self.get_remote_branch_head_refs w (some bs) = .ok m ∧
      ∀ h ∈ refs, "refs/heads/".data.isPrefixOf h.name.data = true →
        (strip_refs_heads h.name ∈ bs → bh_lookup m (strip_refs_heads h.name) = none) ∧
        (strip_refs_heads h.name ∉ bs → ∃ c, r.find_commit h.oid = some c ∧
            bh_lookup m (strip_refs_heads h.name) = some (branch_head_meta c)) := by
  obtain ⟨m, hm, hunch, hprops⟩ := collect_branch_heads_spec r bs
    (refs.filter (fun h => "refs/heads/".data.isPrefixOf h.name.data)) []
    (fun h hh => hall h (List.mem_filter.mp hh).1 (List.mem_filter.mp hh).2)
    hnodup
  refine ⟨m, ?_, ?_⟩
  · unfold GitRepoInfo.get_remote_branch_head_refs
    simp only [htemp, hpath, GitRepo.to_repository_from_path, hrepo,
      GitRepoInfo.build_git2_remotecallback, hname, hrem, hconn, hls,
      Bool.not_true, Bool.false_eq_true, if_false]
    exact hm
  · intro h hh hsw
    have hmem : h ∈ refs.filter (fun h => "refs/heads/".data.isPrefixOf h.name.data) :=
      List.mem_filter.mpr ⟨hh, hsw⟩
    refine ⟨fun hin => ?_, fun hnin => (hprops h hmem).2 hnin⟩
    rw [(hprops h hmem).1 hin]
    rfl

/-- C7 witness: filtering `["dev"]` on the concrete remote omits `dev` and
keeps `main` mapped to `M`'s metadata. -/
theorem claim_C7_witness :
    ∃ m, deepInfo.get_remote_branch_head_refs deepWorld (some ["dev"]) = .ok m ∧
      bh_lookup m "dev" = none ∧ bh_lookup m "main" = some (branch_head_meta commitM) := by
  obtain ⟨m, hm, hprops⟩ := claim_C7_filter_excludes_listed deepInfo deepWorld "/repo"
    deepRepo "/tmp/scratch" "origin" originRemote
    [{ name := "refs/heads/main", oid := id40c }, { name := "refs/heads/dev", oid := id40a }]
    ["dev"] rfl rfl rfl rfl rfl rfl rfl
    (by
      intro h hh _
      rcases (by simpa using hh :
          h = ({ name := "refs/heads/main", oid := id40c } : RemoteHead) ∨
          h = ({ name := "refs/heads/dev", oid := id40a } : RemoteHead)) with rfl | rfl <;> decide)
    (by decide)
  refine ⟨m, hm, ?_, ?_⟩
  · have hdev := (hprops { name := "refs/heads/dev", oid := id40a } (by simp) (by decide)).1
      (by decide)
    simpa using hdev
  · have hmain := (hprops { name := "refs/heads/main", oid := id40c } (by simp) (by decide)).2
      (by decide)
    obtain ⟨c, hc, hl⟩ := hmain
    have hcm : c = commitM := by
      have heval : deepRepo.find_commit id40c = some commitM := rfl
      exact (Option.some.inj (heval.symm.trans hc)).symm
    subst hcm
    simpa using hl

/-- C8 counterexample: on a concrete repository whose current branch has no
upstream remote configured, `get_remote_branch_head_refs` FAILS with the
could-not-read-remote-name error instead of defaulting the remote name to
`"origin"`; the `"origin"` fallback exists only in the superseded
`_get_remote_name` helper of src/lib.rs, which this function does not call. -/
theorem claim_C8_counterexample :
    deepInfo.get_remote_branch_head_refs noUpstreamWorld none =
      .error (.eyre "Could not read remote name from git2::Repository") ∧
    LegacyGitRepo._get_remote_name noUpstreamRepo = .ok "origin" :=
  ⟨rfl, rfl⟩

/-- C8 (amended): whenever `get_remote_name` fails (e.g. the upstream-remote
lookup errors), `get_remote_branch_head_refs` fails the whole operation with
the could-not-read-remote-name error; defaulting to `"origin"` on a failed
upstream lookup is the behaviour of the superseded lib.rs `_get_remote_name`
helper only. -/
theorem claim_C8_remote_name_failure_fails (self : GitRepoInfo) (w : World) (p td : String)
    (r : Repository) (bf : Option (List String))
    (htemp : w.temp_new_dir = some td)
    (hpath : self.path = some p)
    (hrepo : w.repos p = some r)
    (hfail : ∃ e, self.get_remote_name r = .error e) :
    self.get_remote_branch_head_refs w bf =
      .error (.eyre "Could not read remote name from git2::Repository") ∧
    (∀ refname, r.head_resolved_name = some (some refname) →
        r.branch_upstream_remote refname = none →
        LegacyGitRepo._get_remote_name r = .ok "origin") := by
  constructor
  · obtain ⟨e, he⟩ := hfail
    unfold GitRepoInfo.get_remote_branch_head_refs
    simp only [htemp, hpath, GitRepo.to_repository_from_path, hrepo, he]
  · intro refname h1 h2
    unfold LegacyGitRepo._get_remote_name
    simp [h1, h2]

/-- C8 witness: the amended behaviour on the concrete no-upstream fixture. -/
theorem claim_C8_witness :
    deepInfo.get_remote_branch_head_refs noUpstreamWorld (some []) =
      .error (.eyre "Could not read remote name from git2::Repository") ∧
    (∀ refname, noUpstreamRepo.head_resolved_name = some (some refname) →
        noUpstreamRepo.branch_upstream_remote refname = none →
        LegacyGitRepo._get_remote_name noUpstreamRepo = .ok "origin") :=
  claim_C8_remote_name_failure_fails deepInfo noUpstreamWorld "/repo" "/tmp/scratch"
    noUpstreamRepo (some []) rfl rfl rfl ⟨.backend, rfl⟩

/-- C9: `new_commits_exist` shallow-clones a fresh identity built from the SAME
url (reparsed), branch and credentials as the stored one, and returns `true`
exactly when the fresh clone's resolved HEAD commit differs from the stored
`head`; in particular a never-resolved stored `head` (`None`) yields `true`. -/
theorem claim_C9_new_commits_compare_heads (self : GitRepoInfo) (w : World)
    (u b td : String) (fresh : GitRepo) (meta : GitCommitMeta)
    (hu : w.giturl_parse self.url = some u)
    (hb : self.branch = some b)
    (ht : w.temp_new_dir = some td)
    (hc : w.shallow_clone
        { url := u, credentials := self.credentials, branch := some b, path := none } td =
      some fresh)
    (hh : fresh.head = some meta) :
    self.new_commits_exist w = .ok (decide (self.head ≠ some meta)) ∧
    (self.head = none → self.new_commits_exist w = .ok true) := by
  have hmain : self.new_commits_exist w = .ok (decide (self.head ≠ some meta)) := by
    unfold GitRepoInfo.new_commits_exist
    simp only [GitRepo.new, hu, hb, GitRepo.with_branch, GitRepo.with_credentials,
      GitRepo.to_clone, ht, GitRepoCloneRequest.git_clone_shallow, hc, hh]
  refine ⟨hmain, fun h0 => ?_⟩
  rw [hmain, h0]
  simp

/-- C9 witness: on the fixture whose fresh shallow clone resolves HEAD to `M`
while the stored identity never resolved a head, the check reports `true`. -/
theorem claim_C9_witness :
    deepInfo.new_commits_exist deepWorld = .ok (decide (deepInfo.head ≠ some (GitCommitMeta.new id40c))) ∧
    (deepInfo.head = none → deepInfo.new_commits_exist deepWorld = .ok true) :=
  claim_C9_new_commits_compare_heads deepInfo deepWorld "https://example.com/repo.git"
    "main" "/tmp/scratch"
    { url := "https://example.com/repo.git", head := some (GitCommitMeta.new id40c),
      credentials := none, branch := some "main", path := some "/tmp/scratch" }
    (GitCommitMeta.new id40c) rfl rfl rfl rfl rfl

/-- C10: when the identity's `branch` field is `None`, `new_commits_exist`
fails up front, and its result does not depend on the temp-directory or
shallow-clone environment at all — no clone is attempted. -/
theorem claim_C10_no_branch_fails_before_clone (self : GitRepoInfo) (w : World)
    (hb : self.branch = none) :
    (∃ e, self.new_commits_exist w = .error e) ∧
    (∀ (t : Option String) (s : GitRepoCloneRequest → String → Option GitRepo),
        self.new_commits_exist { w with temp_new_dir := t, shallow_clone := s } =
          self.new_commits_exist w) := by
  constructor
  · cases hp : w.giturl_parse self.url with
    | none =>
        exact ⟨.eyre "Could not crete new GitUrl",
          by unfold GitRepoInfo.new_commits_exist; simp [GitRepo.new, hp]⟩
    | some u =>
        exact ⟨.eyre "No branch set",
          by unfold GitRepoInfo.new_commits_exist; simp [GitRepo.new, hp, hb]⟩
  · intro t s
    cases hp : w.giturl_parse self.url with
    | none => unfold GitRepoInfo.new_commits_exist; simp [GitRepo.new, hp]
    | some u => unfold GitRepoInfo.new_commits_exist; simp [GitRepo.new, hp, hb]

/-- C10 witness: the concrete branchless identity fails and is insensitive to
the clone environment. -/
theorem claim_C10_witness :
    (∃ e, noBranchInfo.new_commits_exist deepWorld = .error e) ∧
    (∀ (t : Option String) (s : GitRepoCloneRequest → String → Option GitRepo),
        noBranchInfo.new_commits_exist { deepWorld with temp_new_dir := t, shallow_clone := s } =
          noBranchInfo.new_commits_exist deepWorld) :=
  claim_C10_no_branch_fails_before_clone noBranchInfo deepWorld rfl
